import Mathlib

/-!
Verification of the quest_log focus-timer application.

This file shallowly embeds the two algorithmic components of the repository:

* `src/js/timer.js` — the `Timer` IIFE module, a countdown state machine
  with states `idle` / `running` / `paused` (the string `'break'` appears in
  a comment but is never assigned), integer second counts, warning
  thresholds, and four single-slot event callbacks (`onTick`,
  `onStateChange`, `onComplete`, `onWarning`).  Each JS function that
  mutates the module state and fires callbacks is embedded as a pure
  function `TimerState → TimerState × List Event` returning the successor
  state together with the list of events emitted, in emission order.
  `Date`-valued fields (`sessionStartTime`, the `startTime` / `endTime`
  fields of the completion payload) are wall-clock data and are not
  modelled; `intervalId` is active exactly while `state = running`, which
  is captured by a side condition on when `tick` may fire.
* the History module (session statistics over localStorage) — its
  functions read the stored session list and the current date; they are
  embedded as functions taking the session list and the current day as
  arguments.  ISO-8601 date strings `YYYY-MM-DD` are modelled as integer
  day numbers: string equality / `startsWith` on the date prefix becomes
  equality of day numbers, and the JS subtraction of 86400000 ms (one UTC
  day, `toISOString` works in UTC) becomes subtracting 1.

JS numbers holding whole seconds are modelled as `Int`; `Math.floor` of a
quotient is `Int.fdiv` and the JS `%` operator is `Int.tmod`.
-/

namespace QuestLog

/-- The three states the `state` variable of `timer.js` actually takes. -/
inductive TState
  | idle
  | running
  | paused
  deriving DecidableEq

/-- The record returned by `formatTime` in `timer.js`: zero-padded hour,
minute and second strings plus the combined `HH:MM:SS` string. -/
structure TimeParts where
  hours : String
  minutes : String
  seconds : String
  formatted : String
  deriving DecidableEq

/-- One callback invocation of the Timer module, in the order the source
fires them: `onWarning(threshold)`, `onTick(formatTime(remaining),
remaining)`, `onComplete(payload)` (its `Date` fields omitted) and
`onStateChange(state, isBreak)` (`isBreak` is `none` where the source
passes no second argument). -/
inductive Event
  | warning (threshold : Int)
  | tick (time : TimeParts) (remaining : Int)
  | complete (duration : Int) (completed : Bool) (wasBreak : Bool)
  | stateChange (st : TState) (isBreak : Option Bool)
  deriving DecidableEq

/-- The mutable module-level variables of `timer.js` (minus the unmodelled
`intervalId` and `sessionStartTime`).  `triggeredWarnings` is the JS `Set`
of thresholds already fired, as a list used only through membership. -/
structure TimerState where
  state : TState
  totalSeconds : Int
  remainingSeconds : Int
  isBreak : Bool
  triggeredWarnings : List Int
  deriving DecidableEq

/-- Initial module state: `state = 'idle'`, 14400 seconds (4 hours) total
and remaining, no break, no warnings fired. -/
def initialTimer : TimerState :=
  { state := .idle
    totalSeconds := 14400
    remainingSeconds := 14400
    isBreak := false
    triggeredWarnings := [] }

/-- `WARNING_THRESHOLDS = [300, 60]` of `timer.js`. -/
def WARNING_THRESHOLDS : List Int := [300, 60]

/-- JS `String(n).padStart(2, '0')`. -/
def padStart2 (s : String) : String :=
  if s.length ≥ 2 then s else String.mk (List.replicate (2 - s.length) '0') ++ s

/-- `formatTime(seconds)` of `timer.js`: `h = Math.floor(seconds / 3600)`,
`m = Math.floor((seconds % 3600) / 60)`, `s = seconds % 60`, each rendered
zero-padded to two digits. -/
def formatTime (seconds : Int) : TimeParts :=
  let h := Int.fdiv seconds 3600
  let m := Int.fdiv (Int.tmod seconds 3600) 60
  let s := Int.tmod seconds 60
  { hours := padStart2 (toString h)
    minutes := padStart2 (toString m)
    seconds := padStart2 (toString s)
    formatted := padStart2 (toString h) ++ ":" ++ padStart2 (toString m) ++ ":"
      ++ padStart2 (toString s) }

/-- `complete()` of `timer.js`: clears the interval, remembers `wasBreak`,
goes to `idle` clearing `isBreak`, then fires `onComplete` with
`duration = totalSeconds` and `completed = true`, then `onStateChange`.
The local `duration = totalSeconds - remainingSeconds` of the source is
computed but never used there. -/
def complete (s : TimerState) : TimerState × List Event :=
  let wasBreak := s.isBreak
  ({ s with state := .idle, isBreak := false },
    [Event.complete s.totalSeconds true wasBreak, Event.stateChange .idle none])

/-- The body of the `WARNING_THRESHOLDS.forEach` callback in `tick()`:
if `remainingSeconds === threshold` and the threshold is not yet in
`triggeredWarnings`, add it and fire `onWarning(threshold)`. -/
def checkWarning (acc : TimerState × List Event) (threshold : Int) :
    TimerState × List Event :=
  if acc.1.remainingSeconds = threshold ∧ threshold ∉ acc.1.triggeredWarnings then
    ({ acc.1 with triggeredWarnings := threshold :: acc.1.triggeredWarnings },
      acc.2 ++ [Event.warning threshold])
  else acc

/-- `tick()` of `timer.js`: on `remainingSeconds <= 0` call `complete()`
and return; otherwise decrement `remainingSeconds`, run the warning
check over `WARNING_THRESHOLDS`, then fire `onTick`. -/
def tick (s : TimerState) : TimerState × List Event :=
  if s.remainingSeconds ≤ 0 then complete s
  else
    let s1 := { s with remainingSeconds := s.remainingSeconds - 1 }
    let r := WARNING_THRESHOLDS.foldl checkWarning (s1, [])
    (r.1, r.2 ++ [Event.tick (formatTime r.1.remainingSeconds) r.1.remainingSeconds])

/-- `start()` of `timer.js`: no-op while running; from `idle` it clears
`triggeredWarnings` (and stamps the unmodelled `sessionStartTime`); sets
`state = 'running'`, starts the interval and fires
`onStateChange(state, isBreak)`. -/
def start (s : TimerState) : TimerState × List Event :=
  if s.state = .running then (s, [])
  else
    let s1 := if s.state = .idle then { s with triggeredWarnings := [] } else s
    let s2 := { s1 with state := TState.running }
    (s2, [Event.stateChange .running (some s2.isBreak)])

/-- `pause()` of `timer.js`: only from running; stops the interval and
fires `onStateChange(state)`. -/
def pause (s : TimerState) : TimerState × List Event :=
  if s.state ≠ .running then (s, [])
  else ({ s with state := TState.paused }, [Event.stateChange .paused none])

/-- `toggle()` of `timer.js`. -/
def toggle (s : TimerState) : TimerState × List Event :=
  if s.state = .running then pause s else start s

/-- `reset()` of `timer.js`: stop the interval, back to `idle`, restore
`remainingSeconds = totalSeconds`, clear `isBreak` and the warnings, fire
`onTick` then `onStateChange`. -/
def reset (s : TimerState) : TimerState × List Event :=
  let s1 := { s with
    state := TState.idle
    remainingSeconds := s.totalSeconds
    isBreak := false
    triggeredWarnings := ([] : List Int) }
  (s1, [Event.tick (formatTime s1.remainingSeconds) s1.remainingSeconds,
    Event.stateChange .idle none])

/-- `abort()` of `timer.js`: computes `duration = totalSeconds -
remainingSeconds`, returns to `idle` with full `remainingSeconds`,
clears `isBreak` and the warnings; fires `onComplete` with
`completed = false` only when `duration > 60`, then `onTick` and
`onStateChange`. -/
def abort (s : TimerState) : TimerState × List Event :=
  let duration := s.totalSeconds - s.remainingSeconds
  let s1 := { s with
    state := TState.idle
    remainingSeconds := s.totalSeconds
    isBreak := false
    triggeredWarnings := ([] : List Int) }
  ((s1),
    (if duration > 60 then [Event.complete duration false false] else []) ++
      [Event.tick (formatTime s1.remainingSeconds) s1.remainingSeconds,
        Event.stateChange .idle none])

/-- `setTime(seconds)` of `timer.js`: no-op while running; clamps via
`Math.max(60, Math.min(seconds, 43200))`, sets both counters and fires
`onTick`. -/
def setTime (seconds : Int) (s : TimerState) : TimerState × List Event :=
  if s.state = .running then (s, [])
  else
    let t := max 60 (min seconds 43200)
    ({ s with totalSeconds := t, remainingSeconds := t },
      [Event.tick (formatTime t) t])

/-- `adjustTime(delta)` of `timer.js`: no-op while running, else
`setTime(totalSeconds + delta)`. -/
def adjustTime (delta : Int) (s : TimerState) : TimerState × List Event :=
  if s.state = .running then (s, [])
  else setTime (s.totalSeconds + delta) s

/-- `startBreak(breakSeconds)` of `timer.js`: unconditionally sets
`totalSeconds = remainingSeconds = breakSeconds` and `isBreak = true`,
clears the warnings (and stamps the unmodelled `sessionStartTime`),
fires `onTick`, then calls `start()`. -/
def startBreak (breakSeconds : Int) (s : TimerState) : TimerState × List Event :=
  let s1 := { s with
    totalSeconds := breakSeconds
    remainingSeconds := breakSeconds
    isBreak := true
    triggeredWarnings := ([] : List Int) }
  let r := start s1
  (r.1, Event.tick (formatTime breakSeconds) breakSeconds :: r.2)

/-- Iterate `tick` `n` times, collecting the events of all ticks in
order (the interval firing `n` consecutive seconds). -/
def tickRun : Nat → TimerState → TimerState × List Event
  | 0, s => (s, [])
  | n + 1, s =>
    let r1 := tick s
    let r2 := tickRun n r1.1
    (r2.1, r1.2 ++ r2.2)

/-- Recognizes `onComplete` invocations among the emitted events. -/
def Event.isComplete : Event → Bool
  | .complete _ _ _ => true
  | _ => false

/-- Recognizes `onWarning` invocations among the emitted events. -/
def Event.isWarning : Event → Bool
  | .warning _ => true
  | _ => false

/-- Warning events are not completion events. -/
lemma isWarning_not_isComplete (e : Event) (h : e.isWarning = true) :
    e.isComplete = false := by
  cases e <;> simp_all [Event.isWarning, Event.isComplete]

/-- One step of the warning check preserves every field of the timer state
except `triggeredWarnings`, and appends only warning events. -/
lemma checkWarning_spec (acc : TimerState × List Event) (t : Int) :
    (checkWarning acc t).1.state = acc.1.state ∧
    (checkWarning acc t).1.totalSeconds = acc.1.totalSeconds ∧
    (checkWarning acc t).1.remainingSeconds = acc.1.remainingSeconds ∧
    (checkWarning acc t).1.isBreak = acc.1.isBreak ∧
    ∃ ws : List Event, (∀ e ∈ ws, e.isWarning = true) ∧
      (checkWarning acc t).2 = acc.2 ++ ws := by
  unfold checkWarning
  split
  · exact ⟨rfl, rfl, rfl, rfl, [Event.warning t],
      by simp [Event.isWarning], rfl⟩
  · exact ⟨rfl, rfl, rfl, rfl, [], by simp, by simp⟩

/-- The warning fold preserves every field of the timer state except
`triggeredWarnings`, and appends only warning events. -/
lemma foldl_checkWarning_spec (l : List Int) (acc : TimerState × List Event) :
    (l.foldl checkWarning acc).1.state = acc.1.state ∧
    (l.foldl checkWarning acc).1.totalSeconds = acc.1.totalSeconds ∧
    (l.foldl checkWarning acc).1.remainingSeconds = acc.1.remainingSeconds ∧
    (l.foldl checkWarning acc).1.isBreak = acc.1.isBreak ∧
    ∃ ws : List Event, (∀ e ∈ ws, e.isWarning = true) ∧
      (l.foldl checkWarning acc).2 = acc.2 ++ ws := by
  induction l generalizing acc with
  | nil => exact ⟨rfl, rfl, rfl, rfl, [], by simp, by simp⟩
  | cons t l ih =>
    obtain ⟨c1, c2, c3, c4, ws1, hws1, hev1⟩ := checkWarning_spec acc t
    obtain ⟨i1, i2, i3, i4, ws2, hws2, hev2⟩ := ih (checkWarning acc t)
    refine ⟨by rw [List.foldl_cons, i1, c1], by rw [List.foldl_cons, i2, c2],
      by rw [List.foldl_cons, i3, c3], by rw [List.foldl_cons, i4, c4],
      ws1 ++ ws2, ?_, ?_⟩
    · intro e he
      rcases List.mem_append.1 he with h | h
      · exact hws1 e h
      · exact hws2 e h
    · rw [List.foldl_cons, hev2, hev1, List.append_assoc]

/-- A tick with positive `remainingSeconds` decrements it by one, touches
no other field but `triggeredWarnings`, and emits warning events (if any)
followed by the tick event — no completion event. -/
lemma tick_pos (s : TimerState) (h : 0 < s.remainingSeconds) :
    (tick s).1.state = s.state ∧
    (tick s).1.totalSeconds = s.totalSeconds ∧
    (tick s).1.remainingSeconds = s.remainingSeconds - 1 ∧
    (tick s).1.isBreak = s.isBreak ∧
    ∃ ws : List Event, (∀ e ∈ ws, e.isWarning = true) ∧
      (tick s).2 = ws ++ [Event.tick (formatTime (s.remainingSeconds - 1))
        (s.remainingSeconds - 1)] := by
  have hcond : ¬ s.remainingSeconds ≤ 0 := by omega
  obtain ⟨f1, f2, f3, f4, ws, hws, hev⟩ := foldl_checkWarning_spec WARNING_THRESHOLDS
    ({ s with remainingSeconds := s.remainingSeconds - 1 }, [])
  simp only [tick, if_neg hcond]
  exact ⟨f1, f2, f3, f4, ws, hws, by rw [hev, f3]; simp⟩

/-- A tick with `remainingSeconds ≤ 0` calls `complete()`: idle, `isBreak`
cleared, and exactly the events `onComplete(totalSeconds, true, wasBreak)`
then `onStateChange('idle')`. -/
lemma tick_zero (s : TimerState) (h : s.remainingSeconds ≤ 0) :
    tick s = ({ s with state := TState.idle, isBreak := false },
      [Event.complete s.totalSeconds true s.isBreak,
        Event.stateChange .idle none]) := by
  simp only [tick, if_pos h, complete]

/-- The `n + 1`-st tick of a run is the single tick after the first `n`. -/
lemma tickRun_succ (n : Nat) (s : TimerState) :
    tickRun (n + 1) s =
      ((tick (tickRun n s).1).1, (tickRun n s).2 ++ (tick (tickRun n s).1).2) := by
  induction n generalizing s with
  | zero => simp [tickRun]
  | succ n ih =>
    have hl : tickRun (n + 1 + 1) s =
        ((tickRun (n + 1) (tick s).1).1, (tick s).2 ++ (tickRun (n + 1) (tick s).1).2) :=
      rfl
    have hr : tickRun (n + 1) s =
        ((tickRun n (tick s).1).1, (tick s).2 ++ (tickRun n (tick s).1).2) := rfl
    rw [hl, ih (tick s).1, hr]
    simp [List.append_assoc]

/-- A run of `m + n` ticks is a run of `m` ticks followed by a run of
`n` ticks. -/
lemma tickRun_add (m n : Nat) (s : TimerState) :
    tickRun (m + n) s =
      ((tickRun n (tickRun m s).1).1,
        (tickRun m s).2 ++ (tickRun n (tickRun m s).1).2) := by
  induction m generalizing s with
  | zero => simp [tickRun]
  | succ m ih =>
    have hstep : ∀ (k : Nat) (t : TimerState), tickRun (k + 1) t =
        ((tickRun k (tick t).1).1, (tick t).2 ++ (tickRun k (tick t).1).2) :=
      fun k t => rfl
    have hl : m + 1 + n = (m + n) + 1 := by omega
    rw [hl, hstep (m + n) s, ih (tick s).1, hstep m s]
    simp [List.append_assoc]

/-- Running `n` ticks while at least `n` seconds remain counts down by
exactly `n`, preserves `state`, `totalSeconds` and `isBreak`, and emits no
completion event. -/
lemma tickRun_countdown (n : Nat) (s : TimerState)
    (h : (n : Int) ≤ s.remainingSeconds) :
    (tickRun n s).1.state = s.state ∧
    (tickRun n s).1.totalSeconds = s.totalSeconds ∧
    (tickRun n s).1.remainingSeconds = s.remainingSeconds - n ∧
    (tickRun n s).1.isBreak = s.isBreak ∧
    (tickRun n s).2.filter Event.isComplete = [] := by
  induction n generalizing s with
  | zero => simp [tickRun]
  | succ n ih =>
    have hpos : 0 < s.remainingSeconds := by
      have : ((n : Int) + 1) ≤ s.remainingSeconds := by push_cast at h ⊢; omega
      omega
    obtain ⟨t1, t2, t3, t4, ws, hws, hev⟩ := tick_pos s hpos
    obtain ⟨i1, i2, i3, i4, i5⟩ := ih (tick s).1 (by rw [t3]; push_cast at h ⊢; omega)
    have hshape : tickRun (n + 1) s =
        ((tickRun n (tick s).1).1, (tick s).2 ++ (tickRun n (tick s).1).2) := rfl
    rw [hshape]
    refine ⟨by rw [i1, t1], by rw [i2, t2], ?_, by rw [i4, t4], ?_⟩
    · rw [i3, t3]; push_cast; omega
    · rw [List.filter_append, i5, hev, List.filter_append]
      have h1 : ws.filter Event.isComplete = [] := by
        rw [List.filter_eq_nil_iff]
        intro e he
        simp [isWarning_not_isComplete e (hws e he)]
      have h2 : [Event.tick (formatTime (s.remainingSeconds - 1))
          (s.remainingSeconds - 1)].filter Event.isComplete = [] := by
        simp [Event.isComplete]
      rw [h1, h2]
      simp

/-- Starting from idle clears the triggered warnings, moves to running and
fires `onStateChange('running', isBreak)`. -/
lemma start_idle (s : TimerState) (h : s.state = TState.idle) :
    start s = ({ s with state := TState.running, triggeredWarnings := [] },
      [Event.stateChange .running (some s.isBreak)]) := by
  have hne : ¬ s.state = TState.running := by rw [h]; simp
  simp only [start, if_neg hne, if_pos h]

/-- `start` never changes the second counters or the break flag. -/
lemma start_fields (s : TimerState) :
    (start s).1.totalSeconds = s.totalSeconds ∧
    (start s).1.remainingSeconds = s.remainingSeconds ∧
    (start s).1.isBreak = s.isBreak := by
  by_cases hr : s.state = TState.running
  · simp [start, hr]
  · by_cases hi : s.state = TState.idle <;> simp [start, hr, hi]

/-- `pause` never changes the second counters or the break flag. -/
lemma pause_fields (s : TimerState) :
    (pause s).1.totalSeconds = s.totalSeconds ∧
    (pause s).1.remainingSeconds = s.remainingSeconds ∧
    (pause s).1.isBreak = s.isBreak := by
  by_cases hr : s.state = TState.running <;> simp [pause, hr]

/-- The state `reset` leaves behind. -/
lemma reset_fst (s : TimerState) :
    (reset s).1 = { s with
      state := TState.idle
      remainingSeconds := s.totalSeconds
      isBreak := false
      triggeredWarnings := ([] : List Int) } := rfl

/-- The state `abort` leaves behind (the events depend on the elapsed
time, the state does not). -/
lemma abort_fst (s : TimerState) :
    (abort s).1 = { s with
      state := TState.idle
      remainingSeconds := s.totalSeconds
      isBreak := false
      triggeredWarnings := ([] : List Int) } := rfl

/-- `setTime` while not running sets both counters to the clamped value. -/
lemma setTime_fst (n : Int) (s : TimerState) (h : ¬ s.state = TState.running) :
    (setTime n s).1 = { s with
      totalSeconds := max 60 (min n 43200)
      remainingSeconds := max 60 (min n 43200) } := by
  simp [setTime, h]

/-- `startBreak` writes the supplied duration into both counters,
whatever the current state is. -/
lemma startBreak_fst_fields (n : Int) (s : TimerState) :
    (startBreak n s).1.totalSeconds = n ∧
    (startBreak n s).1.remainingSeconds = n := by
  obtain ⟨h1, h2, _⟩ := start_fields { s with
    totalSeconds := n
    remainingSeconds := n
    isBreak := true
    triggeredWarnings := ([] : List Int) }
  exact ⟨h1, h2⟩

/-- Timer states reachable through the application's use of the Timer
module: any public operation at any time, except that `startBreak` is
invoked by `app.js` only with the break durations 300 and 900, and the
internal `tick` fires only while the interval is active, which is exactly
while `state = running` (every transition out of running clears the
interval). -/
inductive Reachable : TimerState → Prop
  | base : Reachable initialTimer
  | stepStart (s : TimerState) : Reachable s → Reachable (start s).1
  | stepPause (s : TimerState) : Reachable s → Reachable (pause s).1
  | stepToggle (s : TimerState) : Reachable s → Reachable (toggle s).1
  | stepReset (s : TimerState) : Reachable s → Reachable (reset s).1
  | stepAbort (s : TimerState) : Reachable s → Reachable (abort s).1
  | stepSetTime (s : TimerState) (n : Int) : Reachable s → Reachable (setTime n s).1
  | stepAdjustTime (s : TimerState) (d : Int) :
      Reachable s → Reachable (adjustTime d s).1
  | stepBreakShort (s : TimerState) : Reachable s → Reachable (startBreak 300 s).1
  | stepBreakLong (s : TimerState) : Reachable s → Reachable (startBreak 900 s).1
  | stepTick (s : TimerState) : Reachable s → s.state = TState.running →
      Reachable (tick s).1

/-- Every reachable state keeps `totalSeconds` within `[60, 43200]` and
`remainingSeconds` within `[0, totalSeconds]`. -/
lemma reachable_bounds {s : TimerState} (h : Reachable s) :
    60 ≤ s.totalSeconds ∧ s.totalSeconds ≤ 43200 ∧
    0 ≤ s.remainingSeconds ∧ s.remainingSeconds ≤ s.totalSeconds := by
  induction h with
  | base => refine ⟨by decide, by decide, by decide, by decide⟩
  | stepStart s h ih =>
    obtain ⟨f1, f2, _⟩ := start_fields s
    rw [f1, f2]; exact ih
  | stepPause s h ih =>
    obtain ⟨f1, f2, _⟩ := pause_fields s
    rw [f1, f2]; exact ih
  | stepToggle s h ih =>
    by_cases hr : s.state = TState.running
    · obtain ⟨f1, f2, _⟩ := pause_fields s
      simp only [toggle, if_pos hr]
      rw [f1, f2]; exact ih
    · obtain ⟨f1, f2, _⟩ := start_fields s
      simp only [toggle, if_neg hr]
      rw [f1, f2]; exact ih
  | stepReset s h ih =>
    obtain ⟨a, b, _, _⟩ := ih
    rw [reset_fst]
    refine ⟨a, b, ?_, ?_⟩ <;> simp <;> omega
  | stepAbort s h ih =>
    obtain ⟨a, b, _, _⟩ := ih
    rw [abort_fst]
    refine ⟨a, b, ?_, ?_⟩ <;> simp <;> omega
  | stepSetTime s n h ih =>
    by_cases hr : s.state = TState.running
    · simp only [setTime, if_pos hr]; exact ih
    · rw [setTime_fst n s hr]
      refine ⟨?_, ?_, ?_, ?_⟩ <;> simp
  | stepAdjustTime s d h ih =>
    by_cases hr : s.state = TState.running
    · simp only [adjustTime, if_pos hr]; exact ih
    · simp only [adjustTime, if_neg hr]
      rw [setTime_fst _ s hr]
      refine ⟨?_, ?_, ?_, ?_⟩ <;> simp
  | stepBreakShort s h ih =>
    obtain ⟨f1, f2⟩ := startBreak_fst_fields 300 s
    rw [f1, f2]
    norm_num
  | stepBreakLong s h ih =>
    obtain ⟨f1, f2⟩ := startBreak_fst_fields 900 s
    rw [f1, f2]
    norm_num
  | stepTick s h hrun ih =>
    obtain ⟨a, b, c, d⟩ := ih
    by_cases hz : s.remainingSeconds ≤ 0
    · rw [tick_zero s hz]
      exact ⟨a, b, c, d⟩
    · obtain ⟨_, t2, t3, _, _⟩ := tick_pos s (by omega)
      rw [t2, t3]
      exact ⟨a, b, by omega, by omega⟩

/-- C1 (counterexample): from the initial Idle state with
`totalSeconds = 14400`, `start()` followed by exactly 14400 `tick()`s
emits NO completion event and leaves the timer still Running (with
`remainingSeconds = 0`); the claimed single completion only arrives on
tick 14401.  This refutes the claim that 14400 ticks yield one
completion event and end in Idle. -/
theorem c1_counterexample :
    ((start initialTimer).2 ++ (tickRun 14400 (start initialTimer).1).2).filter
        Event.isComplete = [] ∧
    (tickRun 14400 (start initialTimer).1).1.state = TState.running := by
  obtain ⟨h1, _, _, _, h5⟩ :=
    tickRun_countdown 14400 (start initialTimer).1 (by decide)
  have hst : (start initialTimer).1.state = TState.running := by decide
  have hev : (start initialTimer).2.filter Event.isComplete = [] := by decide
  exact ⟨by rw [List.filter_append, h5, hev]; rfl, by rw [h1, hst]⟩

/-- C1 (amended): from the initial Idle state with `totalSeconds = 14400`,
`start()` followed by exactly 14401 `tick()`s yields exactly one
completion event, with `completed = true` and `duration = 14400`, and
leaves the timer in Idle.  (The 14400th tick brings `remainingSeconds`
to 0; the completion fires on the following tick.) -/
theorem c1_amended :
    ((start initialTimer).2 ++ (tickRun 14401 (start initialTimer).1).2).filter
        Event.isComplete = [Event.complete 14400 true false] ∧
    (tickRun 14401 (start initialTimer).1).1.state = TState.idle := by
  obtain ⟨h1, h2, h3, h4, h5⟩ :=
    tickRun_countdown 14400 (start initialTimer).1 (by decide)
  have hev : (start initialTimer).2.filter Event.isComplete = [] := by decide
  have hrem : (tickRun 14400 (start initialTimer).1).1.remainingSeconds ≤ 0 := by
    rw [h3]; decide
  have htot : (tickRun 14400 (start initialTimer).1).1.totalSeconds = 14400 := by
    rw [h2]; decide
  have hbr : (tickRun 14400 (start initialTimer).1).1.isBreak = false := by
    rw [h4]; decide
  have htz := tick_zero _ hrem
  have he := tickRun_succ 14400 (start initialTimer).1
  norm_num at he
  rw [he, htz]
  constructor
  · simp only [List.filter_append, h5, hev, htot, hbr]
    simp [Event.isComplete]
  · simp

/-- C2 (amended): after a natural completion (a tick firing with
`remainingSeconds = 0` while Running), the resulting Idle state keeps
`remainingSeconds = 0` and `totalSeconds` unchanged; with no intervening
`reset()` or `setTime()`, a subsequent `start()` emits a second
completion event (`completed = true`, `duration = totalSeconds`) on its
very first tick; and a subsequent `abort()` emits one completion event
with `completed = false` and `duration = totalSeconds` provided
`totalSeconds > 60` — when `totalSeconds ≤ 60` the abort emits no
completion event at all. -/
theorem c2_amended (s : TimerState) (h1 : s.state = TState.running)
    (h2 : s.remainingSeconds = 0) :
    (tick s).1.state = TState.idle ∧
    (tick s).1.remainingSeconds = 0 ∧
    (tick s).1.totalSeconds = s.totalSeconds ∧
    (tick (start (tick s).1).1).2.filter Event.isComplete
      = [Event.complete s.totalSeconds true false] ∧
    (60 < s.totalSeconds →
      (abort (tick s).1).2.filter Event.isComplete
        = [Event.complete s.totalSeconds false false]) ∧
    (s.totalSeconds ≤ 60 →
      (abort (tick s).1).2.filter Event.isComplete = []) := by
  have htz := tick_zero s (by omega)
  rw [htz]
  refine ⟨by simp, by simp [h2], by simp, ?_, ?_, ?_⟩
  · rw [start_idle _ (by simp)]
    rw [tick_zero _ (by simp [h2])]
    simp [Event.isComplete]
  · intro h60
    have hcond : 60 < ({ s with state := TState.idle, isBreak := false } :
        TimerState).totalSeconds -
        ({ s with state := TState.idle, isBreak := false } :
        TimerState).remainingSeconds := by simp [h2]; omega
    simp only [abort, if_pos hcond]
    simp [Event.isComplete, h2]
  · intro h60
    have hcond : ¬ (60 < ({ s with state := TState.idle, isBreak := false } :
        TimerState).totalSeconds -
        ({ s with state := TState.idle, isBreak := false } :
        TimerState).remainingSeconds) := by simp [h2]; omega
    simp only [abort, if_neg hcond]
    simp [Event.isComplete]

/-- C2 (witness): the amended theorem applied to the concrete Running
state with `totalSeconds = 14400` and `remainingSeconds = 0`. -/
theorem c2_witness :
    (tick ⟨TState.running, 14400, 0, false, []⟩).1.state = TState.idle ∧
    (tick ⟨TState.running, 14400, 0, false, []⟩).1.remainingSeconds = 0 ∧
    (tick ⟨TState.running, 14400, 0, false, []⟩).1.totalSeconds
      = (⟨TState.running, 14400, 0, false, []⟩ : TimerState).totalSeconds ∧
    (tick (start (tick ⟨TState.running, 14400, 0, false, []⟩).1).1).2.filter
        Event.isComplete
      = [Event.complete
          (⟨TState.running, 14400, 0, false, []⟩ : TimerState).totalSeconds
          true false] ∧
    (60 < (⟨TState.running, 14400, 0, false, []⟩ : TimerState).totalSeconds →
      (abort (tick ⟨TState.running, 14400, 0, false, []⟩).1).2.filter
          Event.isComplete
        = [Event.complete
            (⟨TState.running, 14400, 0, false, []⟩ : TimerState).totalSeconds
            false false]) ∧
    ((⟨TState.running, 14400, 0, false, []⟩ : TimerState).totalSeconds ≤ 60 →
      (abort (tick ⟨TState.running, 14400, 0, false, []⟩).1).2.filter
          Event.isComplete = []) :=
  c2_amended ⟨TState.running, 14400, 0, false, []⟩ rfl rfl

set_option maxRecDepth 1000000 in
/-- C2 (counterexample to the claim as stated): with `totalSeconds = 60`
(the minimum `setTime` allows), running to natural completion and then
calling `abort()` emits NO completion event, because the elapsed
`duration = 60` fails the strict `> 60` check — the claim asserts an
unconditional completion event with `duration = totalSeconds`. -/
theorem c2_counterexample :
    (tickRun 61 (start (setTime 60 initialTimer).1).1).1.state = TState.idle ∧
    (tickRun 61 (start (setTime 60 initialTimer).1).1).1.remainingSeconds = 0 ∧
    (tickRun 61 (start (setTime 60 initialTimer).1).1).1.totalSeconds = 60 ∧
    (abort (tickRun 61 (start (setTime 60 initialTimer).1).1).1).2.filter
      Event.isComplete = [] := by
  decide

/-- C3 (amended): in every reachable timer state
`0 ≤ remainingSeconds ≤ totalSeconds`; a `tick()` while Running with
`remainingSeconds > 0` decreases `remainingSeconds` by exactly 1, and
the tick that fires while Running with `remainingSeconds = 0` triggers
completion and leaves `remainingSeconds` at 0 (it does not decrement);
`remainingSeconds` is never negative. -/
theorem c3_amended (s : TimerState) (h : Reachable s) :
    (0 ≤ s.remainingSeconds ∧ s.remainingSeconds ≤ s.totalSeconds) ∧
    (s.state = TState.running → 0 < s.remainingSeconds →
      (tick s).1.remainingSeconds = s.remainingSeconds - 1) ∧
    (s.state = TState.running → s.remainingSeconds = 0 →
      (tick s).1.remainingSeconds = 0) := by
  obtain ⟨_, _, c, d⟩ := reachable_bounds h
  refine ⟨⟨c, d⟩, ?_, ?_⟩
  · intro _ hpos
    exact (tick_pos s hpos).2.2.1
  · intro _ hz
    rw [tick_zero s (by omega)]
    simpa using hz

/-- C3 (witness): the amended theorem applied to the reachable state
obtained by `start()` from the initial state. -/
theorem c3_witness :
    (0 ≤ (start initialTimer).1.remainingSeconds ∧
      (start initialTimer).1.remainingSeconds
        ≤ (start initialTimer).1.totalSeconds) ∧
    ((start initialTimer).1.state = TState.running →
      0 < (start initialTimer).1.remainingSeconds →
      (tick (start initialTimer).1).1.remainingSeconds
        = (start initialTimer).1.remainingSeconds - 1) ∧
    ((start initialTimer).1.state = TState.running →
      (start initialTimer).1.remainingSeconds = 0 →
      (tick (start initialTimer).1).1.remainingSeconds = 0) :=
  c3_amended (start initialTimer).1 (Reachable.stepStart initialTimer Reachable.base)

set_option maxRecDepth 1000000 in
/-- C3 (counterexample to the claim as stated): the state reached by
`setTime(60)`, `start()` and 60 ticks is Running with
`remainingSeconds = 0`, and the next `tick()` invocation does NOT
decrease `remainingSeconds` by 1 — it stays 0 (that tick triggers the
completion instead).  So "each tick() invocation while Running decreases
remainingSeconds by exactly 1" fails. -/
theorem c3_counterexample :
    (tickRun 60 (start (setTime 60 initialTimer).1).1).1.state
      = TState.running ∧
    (tickRun 60 (start (setTime 60 initialTimer).1).1).1.remainingSeconds = 0 ∧
    (tick (tickRun 60 (start (setTime 60 initialTimer).1).1).1).1.remainingSeconds
      = 0 := by
  decide

/-- C4 (amended): `setTime` and `adjustTime` assign `totalSeconds` only
while not Running and clamp the supplied value into `[60, 43200]`;
`startBreak`, by contrast, assigns the supplied `breakSeconds` to
`totalSeconds` unconditionally — without clamping and even while
Running.  Because the application invokes `startBreak` only with the
break durations 300 and 900, `totalSeconds` still lies in `[60, 43200]`
in every state reachable through the application's operations. -/
theorem c4_amended (s : TimerState) (h : Reachable s) :
    (60 ≤ s.totalSeconds ∧ s.totalSeconds ≤ 43200) ∧
    (∀ n : Int, s.state = TState.running →
      (setTime n s).1 = s ∧ (adjustTime n s).1 = s) ∧
    (∀ n : Int, s.state ≠ TState.running →
      (setTime n s).1.totalSeconds = max 60 (min n 43200) ∧
      (setTime n s).1.remainingSeconds = (setTime n s).1.totalSeconds) ∧
    (∀ n : Int, (startBreak n s).1.totalSeconds = n) := by
  obtain ⟨a, b, _, _⟩ := reachable_bounds h
  refine ⟨⟨a, b⟩, ?_, ?_, ?_⟩
  · intro n hr
    constructor <;> simp [setTime, adjustTime, hr]
  · intro n hr
    rw [setTime_fst n s hr]
    exact ⟨rfl, rfl⟩
  · intro n
    exact (startBreak_fst_fields n s).1

/-- C4 (witness): the amended theorem applied to the initial state. -/
theorem c4_witness :
    (60 ≤ initialTimer.totalSeconds ∧ initialTimer.totalSeconds ≤ 43200) ∧
    (∀ n : Int, initialTimer.state = TState.running →
      (setTime n initialTimer).1 = initialTimer ∧
      (adjustTime n initialTimer).1 = initialTimer) ∧
    (∀ n : Int, initialTimer.state ≠ TState.running →
      (setTime n initialTimer).1.totalSeconds = max 60 (min n 43200) ∧
      (setTime n initialTimer).1.remainingSeconds
        = (setTime n initialTimer).1.totalSeconds) ∧
    (∀ n : Int, (startBreak n initialTimer).1.totalSeconds = n) :=
  c4_amended initialTimer Reachable.base

/-- C4 (counterexample to the claim as stated): while the timer is
Running, `startBreak(10)` assigns `totalSeconds = 10` — an assignment
made while Running, of an unclamped value outside `[60, 43200]`.  This
refutes both "only ever assigned while not Running" and "every operation
that sets it (including startBreak) clamps into [60, 43200]". -/
theorem c4_counterexample :
    (start initialTimer).1.state = TState.running ∧
    (startBreak 10 (start initialTimer).1).1.totalSeconds = 10 ∧
    ¬ 60 ≤ (startBreak 10 (start initialTimer).1).1.totalSeconds := by
  decide

/-- C7: `abort()` emits a completion event iff the elapsed time
`totalSeconds - remainingSeconds` is strictly greater than 60; in
particular with exactly 30 elapsed seconds it emits no completion event,
and with 61 elapsed seconds it emits exactly one completion event with
`completed = false` and `duration = 61`. -/
theorem c7_abort_threshold (s : TimerState) :
    ((abort s).2.filter Event.isComplete ≠ [] ↔
      60 < s.totalSeconds - s.remainingSeconds) ∧
    (s.totalSeconds - s.remainingSeconds = 30 →
      (abort s).2.filter Event.isComplete = []) ∧
    (s.totalSeconds - s.remainingSeconds = 61 →
      (abort s).2.filter Event.isComplete = [Event.complete 61 false false]) := by
  have hfilter : (abort s).2.filter Event.isComplete =
      if 60 < s.totalSeconds - s.remainingSeconds
      then [Event.complete (s.totalSeconds - s.remainingSeconds) false false]
      else [] := by
    by_cases hd : 60 < s.totalSeconds - s.remainingSeconds <;>
      simp only [abort, if_pos, if_neg, hd] <;> simp [Event.isComplete, hd]
  rw [hfilter]
  refine ⟨?_, ?_, ?_⟩
  · by_cases hd : 60 < s.totalSeconds - s.remainingSeconds <;> simp [hd]
  · intro h30
    rw [if_neg (by omega)]
  · intro h61
    rw [if_pos (by omega), h61]

/-- C9: event ordering within one `tick()` — any warning events emitted
on a tick come before that tick's tick event, and on natural completion
(`remainingSeconds ≤ 0`) the completion event comes before the
state-change event (those are the only two events then). -/
theorem c9_event_order (s : TimerState) :
    (0 < s.remainingSeconds →
      ∃ ws : List Event, (∀ e ∈ ws, e.isWarning = true) ∧
        (tick s).2 = ws ++ [Event.tick (formatTime (s.remainingSeconds - 1))
          (s.remainingSeconds - 1)]) ∧
    (s.remainingSeconds ≤ 0 →
      (tick s).2 = [Event.complete s.totalSeconds true s.isBreak,
        Event.stateChange TState.idle none]) := by
  constructor
  · intro h
    obtain ⟨_, _, _, _, ws, hws, hev⟩ := tick_pos s h
    exact ⟨ws, hws, hev⟩
  · intro h
    rw [tick_zero s h]

/-- C10: for every integer input, `setTime` while not Running leaves
`totalSeconds` in `[60, 43200]` and sets `remainingSeconds` equal to it;
in particular `setTime(10)` yields `totalSeconds = 60` and
`setTime(999999)` yields `totalSeconds = 43200`. -/
theorem c10_setTime_clamps (s : TimerState) (n : Int)
    (h : s.state ≠ TState.running) :
    (60 ≤ (setTime n s).1.totalSeconds ∧ (setTime n s).1.totalSeconds ≤ 43200) ∧
    (setTime n s).1.remainingSeconds = (setTime n s).1.totalSeconds ∧
    (setTime 10 s).1.totalSeconds = 60 ∧
    (setTime 999999 s).1.totalSeconds = 43200 := by
  rw [setTime_fst n s h, setTime_fst 10 s h, setTime_fst 999999 s h]
  refine ⟨⟨?_, ?_⟩, rfl, ?_, ?_⟩ <;> simp <;> omega

/-- C10 (witness): `setTime` applied to the initial (idle) state. -/
theorem c10_witness :
    (60 ≤ (setTime 10 initialTimer).1.totalSeconds ∧
      (setTime 10 initialTimer).1.totalSeconds ≤ 43200) ∧
    (setTime 10 initialTimer).1.remainingSeconds
      = (setTime 10 initialTimer).1.totalSeconds ∧
    (setTime 10 initialTimer).1.totalSeconds = 60 ∧
    (setTime 999999 initialTimer).1.totalSeconds = 43200 :=
  c10_setTime_clamps initialTimer 10 (by decide)

/-- Number of `onWarning(t)` events in an event list. -/
def countWarning (t : Int) (es : List Event) : Nat :=
  (es.filter (fun e => e = Event.warning t)).length

/-- The C8 scenario, phase 1: `setTime(400)`, `start()`, then 100 ticks,
reaching `remainingSeconds = 300`. -/
def c8run1 : TimerState × List Event :=
  tickRun 100 (start (setTime 400 initialTimer).1).1

/-- The C8 scenario, phase 2: 240 further ticks, reaching
`remainingSeconds = 60`. -/
def c8run2 : TimerState × List Event := tickRun 240 c8run1.1

/-- The C8 scenario, phase 3: `reset()`, a fresh `start()`, then 340
ticks covering both thresholds again. -/
def c8run3 : TimerState × List Event := tickRun 340 (start (reset c8run2.1).1).1

set_option maxRecDepth 1000000 in
/-- After phase 1 the timer is at `remainingSeconds = 300` with the 300
threshold recorded as triggered. -/
lemma c8_phase1_state :
    c8run1.1 = ⟨TState.running, 400, 300, false, [300]⟩ := by
  decide

set_option maxRecDepth 1000000 in
/-- Phase 1 fires `warning(300)` exactly once and `warning(60)` not at
all. -/
lemma c8_phase1_counts :
    countWarning 300 c8run1.2 = 1 ∧ countWarning 60 c8run1.2 = 0 := by
  decide

set_option maxRecDepth 1000000 in
/-- The first 120 ticks of phase 2 reach `remainingSeconds = 180`. -/
lemma c8_phase2a_state :
    (tickRun 120 (⟨TState.running, 400, 300, false, [300]⟩ : TimerState)).1
      = ⟨TState.running, 400, 180, false, [300]⟩ := by
  decide

set_option maxRecDepth 1000000 in
/-- The remaining 120 ticks of phase 2 reach `remainingSeconds = 60`,
with the 60 threshold now triggered as well. -/
lemma c8_phase2b_state :
    (tickRun 120 (⟨TState.running, 400, 180, false, [300]⟩ : TimerState)).1
      = ⟨TState.running, 400, 60, false, [60, 300]⟩ := by
  decide

/-- After phase 2 the timer is at `remainingSeconds = 60` with both
thresholds recorded as triggered. -/
lemma c8_phase2_state :
    (tickRun 240 (⟨TState.running, 400, 300, false, [300]⟩ : TimerState)).1
      = ⟨TState.running, 400, 60, false, [60, 300]⟩ := by
  have h := tickRun_add 120 120 (⟨TState.running, 400, 300, false, [300]⟩ : TimerState)
  norm_num at h
  rw [h]
  rw [c8_phase2a_state, c8_phase2b_state]

set_option maxRecDepth 1000000 in
/-- Phase 2 fires `warning(60)` exactly once and `warning(300)` not
again. -/
lemma c8_phase2_counts :
    countWarning 300
        (tickRun 240 (⟨TState.running, 400, 300, false, [300]⟩ : TimerState)).2
      = 0 ∧
    countWarning 60
        (tickRun 240 (⟨TState.running, 400, 300, false, [300]⟩ : TimerState)).2
      = 1 := by
  decide

set_option maxRecDepth 1000000 in
/-- Phase 3 (after `reset()` and a fresh `start()`) fires both warnings
exactly once each again. -/
lemma c8_phase3_counts :
    countWarning 300
        (tickRun 340 (start (reset
          (⟨TState.running, 400, 60, false, [60, 300]⟩ : TimerState)).1).1).2
      = 1 ∧
    countWarning 60
        (tickRun 340 (start (reset
          (⟨TState.running, 400, 60, false, [60, 300]⟩ : TimerState)).1).1).2
      = 1 := by
  decide

/-- C8: with `totalSeconds = 400`, ticking down to
`remainingSeconds = 300` emits exactly one `warning(300)` (and no
`warning(60)`); continuing down to `remainingSeconds = 60` emits exactly
one `warning(60)` (and no further `warning(300)`); after `reset()` and a
fresh `start()`, the triggered-warnings set is cleared, so ticking down
again fires both thresholds exactly once more. -/
theorem c8_warning_thresholds :
    c8run1.1.remainingSeconds = 300 ∧
    countWarning 300 c8run1.2 = 1 ∧ countWarning 60 c8run1.2 = 0 ∧
    c8run2.1.remainingSeconds = 60 ∧
    countWarning 300 c8run2.2 = 0 ∧ countWarning 60 c8run2.2 = 1 ∧
    countWarning 300 c8run3.2 = 1 ∧ countWarning 60 c8run3.2 = 1 := by
  have e1 : c8run1.1.remainingSeconds = 300 := by rw [c8_phase1_state]
  have e2 : c8run2 = tickRun 240
      (⟨TState.running, 400, 300, false, [300]⟩ : TimerState) := by
    show tickRun 240 c8run1.1 = _
    rw [c8_phase1_state]
  have e2r : c8run2.1.remainingSeconds = 60 := by
    rw [e2, c8_phase2_state]
  have e3 : c8run3 = tickRun 340 (start (reset
      (⟨TState.running, 400, 60, false, [60, 300]⟩ : TimerState)).1).1 := by
    show tickRun 340 (start (reset c8run2.1).1).1 = _
    rw [e2, c8_phase2_state]
  refine ⟨e1, c8_phase1_counts.1, c8_phase1_counts.2, e2r, ?_, ?_, ?_, ?_⟩
  · rw [e2]; exact c8_phase2_counts.1
  · rw [e2]; exact c8_phase2_counts.2
  · rw [e3]; exact c8_phase3_counts.1
  · rw [e3]; exact c8_phase3_counts.2

/-- A stored session record of the History module, restricted to the
fields its statistics functions read.  `startDay` is the integer day
number of the `YYYY-MM-DD` date prefix of the stored ISO-8601
`startTime` string (the JS prefix test `s.startTime.startsWith(today)`
becomes `s.startDay = today`); the `id` and `endTime` fields and the
time-of-day part of `startTime` are never read by the statistics code
and are omitted. -/
structure Session where
  startDay : Int
  duration : Int
  completed : Bool
  wasBreak : Bool
  deriving DecidableEq

/-- `getTodaySessions()` of the History module: the stored sessions
whose start date is today and which are not breaks.  The stored list and
the current day are passed explicitly (the source reads them from
localStorage and `new Date()`). -/
def getTodaySessions (sessions : List Session) (today : Int) : List Session :=
  sessions.filter (fun s => s.startDay == today && !s.wasBreak)

/-- `getTodayTotal()` of the History module: the completed sessions of
today, summed over `duration`. -/
def getTodayTotal (sessions : List Session) (today : Int) : Int :=
  ((getTodaySessions sessions today).filter (fun s => s.completed)).foldl
    (fun sum s => sum + s.duration) 0

/-- `formatDuration(seconds)` of the History module. -/
def formatDuration (seconds : Int) : String :=
  let hours := Int.fdiv seconds 3600
  let minutes := Int.fdiv (Int.tmod seconds 3600) 60
  if hours > 0 then toString hours ++ "h " ++ toString minutes ++ "m"
  else toString minutes ++ "m"

/-- The unbounded `while (true)` walk of `getStreak()`: starting at
`checkDate`, count consecutive days that appear in `dates`, stepping one
day back each time.  The JS loop terminates because `dates` is finite;
the embedding makes that explicit with a fuel argument — `getStreak`
passes `dates.length + 1`, which `streakLoop_lt_fuel` below shows the
loop can never exhaust. -/
def streakLoop (dates : List Int) : Int → Nat → Nat
  | _, 0 => 0
  | d, fuel + 1 => if d ∈ dates then streakLoop dates (d - 1) fuel + 1 else 0

/-- `getStreak()` of the History module: over the completed non-break
sessions, collect the set of start dates (the JS `Set` of `YYYY-MM-DD`
strings becomes a deduplicated list of day numbers); return 0 when there
are no such sessions or when neither today nor yesterday is among the
dates; otherwise walk backward from today (or from yesterday when today
is absent) counting consecutive days present.  The `sortedDates` array
of the source is computed but never used, and is omitted. -/
def getStreak (sessions : List Session) (today : Int) : Nat :=
  let completedSessions := sessions.filter (fun s => s.completed && !s.wasBreak)
  if completedSessions.length = 0 then 0
  else
    let dates := (completedSessions.map Session.startDay).dedup
    let yesterday := today - 1
    if today ∉ dates ∧ yesterday ∉ dates then 0
    else
      let checkDate := if today ∈ dates then today else yesterday
      streakLoop dates checkDate (dates.length + 1)

/-- The statistics record returned by `getStats()` of the History
module. -/
structure Stats where
  todayTotal : Int
  todayFormatted : String
  completedCount : Nat
  abortedCount : Nat
  streak : Nat
  totalTime : Int
  totalTimeFormatted : String
  deriving DecidableEq

/-- `getStats()` of the History module. -/
def getStats (sessions : List Session) (today : Int) : Stats :=
  let focusSessions := sessions.filter (fun s => !s.wasBreak)
  { todayTotal := getTodayTotal sessions today
    todayFormatted := formatDuration (getTodayTotal sessions today)
    completedCount := (focusSessions.filter (fun s => s.completed)).length
    abortedCount := (focusSessions.filter (fun s => !s.completed)).length
    streak := getStreak sessions today
    totalTime := focusSessions.foldl (fun sum s => sum + s.duration) 0
    totalTimeFormatted :=
      formatDuration (focusSessions.foldl (fun sum s => sum + s.duration) 0) }

/-- Folding `+ duration` over a session list sums the durations. -/
lemma foldl_add_duration (l : List Session) (a : Int) :
    l.foldl (fun sum s => sum + s.duration) a = a + (l.map Session.duration).sum := by
  induction l generalizing a with
  | nil => simp
  | cons s l ih => simp [ih, add_assoc]

/-- C5 (amended): `getStats()` reports as today's total focus seconds
the sum of durations of exactly those stored sessions whose start date
equals today's date, whose `wasBreak` flag is false AND whose
`completed` flag is true (aborted sessions of today are excluded). -/
theorem c5_today_total (sessions : List Session) (today : Int) :
    (getStats sessions today).todayTotal =
      ((sessions.filter (fun s => s.startDay == today && !s.wasBreak &&
        s.completed)).map Session.duration).sum := by
  show getTodayTotal sessions today = _
  unfold getTodayTotal getTodaySessions
  rw [foldl_add_duration, List.filter_filter]
  simp only [zero_add]
  congr 1
  congr 1
  refine List.filter_congr ?_
  intro a _
  rw [Bool.and_comm, Bool.and_assoc]

/-- C5 (counterexample to the claim as stated): a single stored session
of today with `wasBreak = false`, `completed = false` and
`duration = 100`: the claim's filter (start date of today, non-break,
no filtering on `completed`) sums to 100, but `getStats` reports 0,
because `getTodayTotal` additionally keeps only `completed` sessions. -/
theorem c5_counterexample :
    (getStats [⟨0, 100, false, false⟩] 0).todayTotal = 0 ∧
    ((([⟨0, 100, false, false⟩] : List Session).filter
        (fun s => s.startDay == 0 && !s.wasBreak)).map Session.duration).sum
      = 100 := by
  decide

/-- The claim's per-day predicate: day `d` has at least one completed
non-break session among the stored sessions. -/
def hasDay (sessions : List Session) (d : Int) : Bool :=
  sessions.any (fun s => s.completed && !s.wasBreak && s.startDay == d)

/-- The claim's starting day for the backward walk: today, or yesterday
when no completed non-break session was logged today (spec-side
definition, for comparison with `getStreak`). -/
def streakAnchor (sessions : List Session) (today : Int) : Int :=
  if hasDay sessions today then today else today - 1

/-- The streak walk never counts more days than its fuel. -/
lemma streakLoop_le (dates : List Int) (d : Int) (fuel : Nat) :
    streakLoop dates d fuel ≤ fuel := by
  induction fuel generalizing d with
  | zero => simp [streakLoop]
  | succ n ih =>
    by_cases hd : d ∈ dates
    · simp only [streakLoop, if_pos hd]
      have := ih (d - 1)
      omega
    · simp only [streakLoop, if_neg hd]
      omega

/-- Every day the streak walk counts is present in `dates`. -/
lemma streakLoop_mem (dates : List Int) (d : Int) (fuel : Nat) (k : Nat)
    (hk : k < streakLoop dates d fuel) : d - (k : Int) ∈ dates := by
  induction fuel generalizing d k with
  | zero => simp [streakLoop] at hk
  | succ n ih =>
    by_cases hd : d ∈ dates
    · rw [show streakLoop dates d (n + 1)
          = streakLoop dates (d - 1) n + 1 from by
        simp only [streakLoop, if_pos hd]] at hk
      cases k with
      | zero => simpa using hd
      | succ j =>
        have heq : d - ((j + 1 : Nat) : Int) = (d - 1) - (j : Int) := by
          push_cast; ring
        rw [heq]
        exact ih (d - 1) j (by omega)
    · rw [show streakLoop dates d (n + 1) = 0 from by
        simp only [streakLoop, if_neg hd]] at hk
      omega

/-- When the streak walk stops before exhausting its fuel, the day just
past the counted run is absent from `dates`. -/
lemma streakLoop_stop (dates : List Int) (d : Int) (fuel : Nat)
    (h : streakLoop dates d fuel < fuel) :
    d - (streakLoop dates d fuel : Int) ∉ dates := by
  induction fuel generalizing d with
  | zero => omega
  | succ n ih =>
    by_cases hd : d ∈ dates
    · have hrw : streakLoop dates d (n + 1) = streakLoop dates (d - 1) n + 1 := by
        simp only [streakLoop, if_pos hd]
      rw [hrw] at h ⊢
      have heq : d - ((streakLoop dates (d - 1) n + 1 : Nat) : Int)
          = (d - 1) - (streakLoop dates (d - 1) n : Int) := by push_cast; ring
      rw [heq]
      exact ih (d - 1) (by omega)
    · have hrw : streakLoop dates d (n + 1) = 0 := by
        simp only [streakLoop, if_neg hd]
      rw [hrw]
      simpa using hd

/-- With fuel `dates.length + 1` the streak walk always stops before
exhausting its fuel: the counted days are distinct members of `dates`,
so there can be at most `dates.length` of them.  (This is the
termination argument for the source's unbounded `while (true)` loop.) -/
lemma streakLoop_lt_fuel (dates : List Int) (d : Int) :
    streakLoop dates d (dates.length + 1) < dates.length + 1 := by
  by_contra hcon
  push_neg at hcon
  have hle := streakLoop_le dates d (dates.length + 1)
  have heq : streakLoop dates d (dates.length + 1) = dates.length + 1 :=
    le_antisymm hle hcon
  have hnd : ((List.range (dates.length + 1)).map
      (fun k : Nat => d - (k : Int))).Nodup := by
    refine List.Nodup.map ?_ (List.nodup_range (dates.length + 1))
    intro a b hab
    simp only at hab
    omega
  have hsub : ∀ x ∈ (List.range (dates.length + 1)).map
      (fun k : Nat => d - (k : Int)), x ∈ dates := by
    intro x hx
    obtain ⟨k, hk, rfl⟩ := List.mem_map.1 hx
    exact streakLoop_mem dates d (dates.length + 1) k
      (by rw [heq]; exact List.mem_range.1 hk)
  have h1 : ((List.range (dates.length + 1)).map
      (fun k : Nat => d - (k : Int))).toFinset.card
      = ((List.range (dates.length + 1)).map
        (fun k : Nat => d - (k : Int))).length :=
    List.toFinset_card_of_nodup hnd
  have h2 : ((List.range (dates.length + 1)).map
      (fun k : Nat => d - (k : Int))).toFinset ⊆ dates.toFinset := by
    intro x hx
    rw [List.mem_toFinset] at hx ⊢
    exact hsub x hx
  have h3 := Finset.card_le_card h2
  have h4 := List.toFinset_card_le dates
  simp only [List.length_map, List.length_range] at h1
  omega

/-- Membership in `getStreak`'s date set agrees with `hasDay`. -/
lemma mem_dates_iff_hasDay (sessions : List Session) (d : Int) :
    d ∈ ((sessions.filter (fun s => s.completed && !s.wasBreak)).map
        Session.startDay).dedup ↔ hasDay sessions d = true := by
  rw [List.mem_dedup, List.mem_map]
  simp only [hasDay, List.any_eq_true, List.mem_filter, Bool.and_eq_true,
    beq_iff_eq]
  constructor
  · rintro ⟨s, ⟨hs, hc, hb⟩, hd⟩
    exact ⟨s, hs, ⟨hc, hb⟩, hd⟩
  · rintro ⟨s, hs, ⟨hc, hb⟩, hd⟩
    exact ⟨s, ⟨hs, hc, hb⟩, hd⟩

/-- C6: the streak reported by `getStats()` is `getStreak()`, and
`getStreak` returns exactly the number of consecutive calendar days,
walking backward from today (or from yesterday when no completed
non-break session was logged today), such that each day has at least one
completed non-break session: every day counted satisfies `hasDay`, the
next day past the counted run does not (so a gap of two or more days
resets the count there), and the streak is 0 when neither today nor
yesterday has a completed non-break session. -/
theorem c6_streak (sessions : List Session) (today : Int) :
    (getStats sessions today).streak = getStreak sessions today ∧
    (∀ k : Nat, k < getStreak sessions today →
      hasDay sessions (streakAnchor sessions today - (k : Int)) = true) ∧
    hasDay sessions (streakAnchor sessions today
      - (getStreak sessions today : Int)) = false ∧
    (hasDay sessions today = false → hasDay sessions (today - 1) = false →
      getStreak sessions today = 0) := by
  refine ⟨rfl, ?_⟩
  set cs := sessions.filter (fun s => s.completed && !s.wasBreak) with hcs
  set dates := (cs.map Session.startDay).dedup with hdates
  have hmem : ∀ x : Int, x ∈ dates ↔ hasDay sessions x = true := fun x => by
    rw [hdates, hcs]
    exact mem_dates_iff_hasDay sessions x
  by_cases h0 : cs.length = 0
  · have hno : ∀ x : Int, hasDay sessions x = false := by
      intro x
      have hx : x ∉ dates := by
        rw [hdates, List.length_eq_zero.1 h0]
        simp
      rw [← Bool.not_eq_true, ← hmem x]
      exact hx
    have hg : getStreak sessions today = 0 := by
      unfold getStreak
      rw [← hcs, if_pos h0]
    rw [hg]
    refine ⟨fun k hk => absurd hk (Nat.not_lt_zero k), ?_, fun _ _ => rfl⟩
    simpa using hno (streakAnchor sessions today)
  · by_cases h1 : today ∉ dates ∧ today - 1 ∉ dates
    · have hg : getStreak sessions today = 0 := by
        unfold getStreak
        rw [← hcs, if_neg h0, ← hdates, if_pos h1]
      have htoday : hasDay sessions today = false := by
        rw [← Bool.not_eq_true, ← hmem today]
        exact h1.1
      have hyest : hasDay sessions (today - 1) = false := by
        rw [← Bool.not_eq_true, ← hmem (today - 1)]
        exact h1.2
      rw [hg]
      refine ⟨fun k hk => absurd hk (Nat.not_lt_zero k), ?_, fun _ _ => rfl⟩
      have hanchor : streakAnchor sessions today = today - 1 := by
        unfold streakAnchor
        rw [htoday]
        simp
      rw [hanchor]
      simpa using hyest
    · have hg : getStreak sessions today
          = streakLoop dates (if today ∈ dates then today else today - 1)
            (dates.length + 1) := by
        unfold getStreak
        rw [← hcs, if_neg h0, ← hdates, if_neg h1]
      have hanchor : streakAnchor sessions today
          = (if today ∈ dates then today else today - 1) := by
        unfold streakAnchor
        by_cases ht : today ∈ dates
        · rw [if_pos ht, if_pos ((hmem today).1 ht)]
        · have hf : hasDay sessions today = false := by
            rw [← Bool.not_eq_true, ← hmem today]
            exact ht
          rw [if_neg ht, hf]
          simp
      have hlt := streakLoop_lt_fuel dates
        (if today ∈ dates then today else today - 1)
      rw [hg, hanchor]
      refine ⟨?_, ?_, ?_⟩
      · intro k hk
        rw [← hmem]
        exact streakLoop_mem dates _ (dates.length + 1) k hk
      · rw [← Bool.not_eq_true, ← hmem]
        exact streakLoop_stop dates _ (dates.length + 1) hlt
      · intro ha hb
        exfalso
        refine h1 ⟨?_, ?_⟩
        · rw [hmem today, ha]; simp
        · rw [hmem (today - 1), hb]; simp

end QuestLog
